import Mathlib

/-!
Shallow embedding of the ledger / contest-join core of `src/server.js`
(an Express + Mongoose fantasy-cricket server).

Persistent Mongo collections become Lean lists; ObjectIds become `Nat`;
monetary amounts (JS numbers used as integral currency amounts) become `Int`;
`createdAt` timestamps become a monotone `Nat` counter (`nextId`).
Each HTTP handler becomes a function `ServerState → args → ServerState × ApiResult`,
translated line by line from the source; the `authenticate` middleware becomes
the initial user lookup of every authenticated handler.

Mongo's `findOne` / `findById` return the first matching document, and
`findByIdAndUpdate` updates that single document; we model both with
first-match lookup (`List.find?`) and first-match update.
-/

namespace FantasyApp

/-- `User` schema of `server.js` (fields relevant to the ledger core). -/
structure User where
  id : Nat
  name : String
  email : String
  phone : String
  balance : Int
  totalWinning : Int
  totalContests : Int
  deriving Repr, DecidableEq

/-- `Contest` schema of `server.js` (prize breakup omitted: never read by the core). -/
structure Contest where
  id : Nat
  matchId : String
  entryFee : Int
  maxTeams : Int
  joinedTeams : Int
  isActive : Bool
  deriving Repr, DecidableEq

/-- An entry of the `players` array of the `Team` schema. -/
structure Player where
  playerId : String
  name : String
  role : String
  points : Int
  deriving Repr, DecidableEq

/-- `Team` schema of `server.js`. `rank` is `Option` since it is unset on creation. -/
structure Team where
  id : Nat
  userId : Nat
  contestId : Nat
  matchId : String
  teamName : String
  captain : String
  viceCaptain : String
  players : List Player
  totalPoints : Int
  rank : Option Nat
  createdAt : Nat
  deriving Repr, DecidableEq

/-- `Payment` schema of `server.js`. -/
structure Payment where
  userId : Nat
  orderId : String
  paymentId : Option String
  amount : Int
  status : String
  deriving Repr, DecidableEq

/-- The persisted state: the four Mongo collections the core touches, plus a
fresh-id counter that also serves as the monotone `createdAt` clock. -/
structure ServerState where
  users : List User
  contests : List Contest
  teams : List Team
  payments : List Payment
  nextId : Nat
  deriving Repr, DecidableEq

/-- Error vocabulary: each constructor corresponds to one distinct HTTP error
response of the source (or to an error the spec names, for stating claims).
`internalError` is a 500 produced by a thrown exception reaching the catch block. -/
inductive ApiError where
  | authFailed
  | userExists
  | paymentNotFound
  | insufficientBalance
  | belowMinimum
  | internalError
  | contestNotFound
  | contestFull
  | contestClosed
  deriving Repr, DecidableEq

/-- Outcome of a handler call. -/
inductive ApiResult where
  | success
  | error (e : ApiError)
  deriving Repr, DecidableEq

/-- `User.findOne({_id})` / the `authenticate` middleware lookup. -/
def getUser (s : ServerState) (uid : Nat) : Option User :=
  s.users.find? fun u => u.id == uid

/-- `Contest.findById(contestId)`. -/
def getContest (s : ServerState) (cid : Nat) : Option Contest :=
  s.contests.find? fun c => c.id == cid

/-- The balance the ledger currently records for account `uid` (if it exists). -/
def balanceOf (s : ServerState) (uid : Nat) : Option Int :=
  (getUser s uid).map fun u => u.balance

/-- The joined-team counter of contest `cid` (if it exists). -/
def joinedTeamsOf (s : ServerState) (cid : Nat) : Option Int :=
  (getContest s cid).map fun c => c.joinedTeams

/-- `User.findByIdAndUpdate(uid, ...)`: update the (first) document with this id. -/
def updateFirstUser : List User → Nat → (User → User) → List User
  | [], _, _ => []
  | u :: us, uid, f => if u.id == uid then f u :: us else u :: updateFirstUser us uid f

/-- `Payment.findOne({orderId})` followed by `payment.save()`: mutate the first
document with this order id. -/
def updateFirstPayment : List Payment → String → (Payment → Payment) → List Payment
  | [], _, _ => []
  | p :: ps, oid, f => if p.orderId == oid then f p :: ps else p :: updateFirstPayment ps oid f

/-- Route 7, `POST /api/verify-payment`: look the payment up by `orderId` alone;
if found — regardless of its current status — store the external payment id, set
status to completed, and increment the **caller's** balance by the recorded amount. -/
def verifyPayment (s : ServerState) (caller : Nat) (orderId paymentId : String) :
    ServerState × ApiResult :=
  match getUser s caller with
  | none => (s, .error .authFailed)
  | some _ =>
    match s.payments.find? (fun p => p.orderId == orderId) with
    | none => (s, .error .paymentNotFound)
    | some payment =>
      let markDone : Payment → Payment :=
        fun p => { p with paymentId := some paymentId, status := "completed" }
      let credit : User → User :=
        fun u => { u with balance := u.balance + payment.amount }
      let s1 : ServerState :=
        { s with payments := updateFirstPayment s.payments orderId markDone }
      let s2 : ServerState := { s1 with users := updateFirstUser s1.users caller credit }
      (s2, .success)

/-- Route 8, `POST /api/create-team` (the join-contest transaction): load the
contest (`findById` returning null makes the next line throw a TypeError, caught
as a 500 — modelled as `internalError`); reject if the caller's balance is below
the entry fee; otherwise save the team, debit the entry fee while bumping
`totalContests`, and increment the contest's `joinedTeams`. The source performs
no capacity, activity, or roster validation. -/
def createTeam (s : ServerState) (caller : Nat) (contestId : Nat)
    (matchId teamName : String) (players : List Player) (captain viceCaptain : String) :
    ServerState × ApiResult :=
  match getUser s caller with
  | none => (s, .error .authFailed)
  | some user =>
    match getContest s contestId with
    | none => (s, .error .internalError)
    | some contest =>
      if user.balance < contest.entryFee then
        (s, .error .insufficientBalance)
      else
        let team : Team :=
          { id := s.nextId, userId := caller, contestId := contestId,
            matchId := matchId, teamName := teamName,
            captain := captain, viceCaptain := viceCaptain,
            players := players, totalPoints := 0, rank := none,
            createdAt := s.nextId }
        let debit : User → User :=
          fun u => { u with balance := u.balance - contest.entryFee,
                            totalContests := u.totalContests + 1 }
        let bump : Contest → Contest :=
          fun c => if c.id == contestId then { c with joinedTeams := c.joinedTeams + 1 } else c
        let s1 : ServerState := { s with teams := s.teams ++ [team], nextId := s.nextId + 1 }
        let s2 : ServerState := { s1 with users := updateFirstUser s1.users caller debit }
        let s3 : ServerState := { s2 with contests := s2.contests.map bump }
        (s3, .success)

/-- Route 11, `POST /api/withdraw`: reject amounts under 100, reject if the
balance is insufficient, otherwise debit the balance. Nothing about the
withdrawal request is persisted anywhere; `upiId` is read and then unused. -/
def withdraw (s : ServerState) (caller : Nat) (amount : Int) (upiId : String) :
    ServerState × ApiResult :=
  match getUser s caller with
  | none => (s, .error .authFailed)
  | some user =>
    if amount < 100 then (s, .error .belowMinimum)
    else if user.balance < amount then (s, .error .insufficientBalance)
    else
      let debit : User → User := fun u => { u with balance := u.balance - amount }
      ({ s with users := updateFirstUser s.users caller debit }, .success)

/-- Route 1, `POST /api/register`: reject a duplicate email, otherwise create the
user with the hard-coded signup balance of 100. -/
def register (s : ServerState) (name email phone : String) : ServerState × ApiResult :=
  if s.users.any (fun u => u.email == email) then (s, .error .userExists)
  else
    let user : User :=
      { id := s.nextId, name := name, email := email, phone := phone,
        balance := 100, totalWinning := 0, totalContests := 0 }
    ({ s with users := s.users ++ [user], nextId := s.nextId + 1 }, .success)

/-- Stable insertion of a team into a points-descending-sorted list: the new
team is placed before every team with a (not strictly larger) equal-or-smaller
score, so that among equal scores the earlier-stored team stays first. Models
the stored-order-stable reading of Mongo's `.sort({totalPoints: -1})`. -/
def insertTeam (t : Team) : List Team → List Team
  | [] => [t]
  | u :: us => if u.totalPoints ≤ t.totalPoints then t :: u :: us else u :: insertTeam t us

/-- Stable sort by `totalPoints` descending (ties keep stored insertion order). -/
def sortTeams : List Team → List Team
  | [] => []
  | t :: ts => insertTeam t (sortTeams ts)

/-- The `teams.forEach((team, index) => team.rank = index + 1)` loop of route 10,
applied to in-memory documents only (they are never saved back). -/
def assignRanks : Nat → List Team → List Team
  | _, [] => []
  | n, t :: ts => { t with rank := some n } :: assignRanks (n + 1) ts

/-- Route 10, `GET /api/leaderboard/:contestId`: fetch the contest's teams
sorted by `totalPoints` descending **limited to 100 documents**, then assign
ranks 1.. in-memory. The handler performs no write, so it is a pure function
of the state. -/
def leaderboard (s : ServerState) (contestId : Nat) : List Team :=
  assignRanks 1 ((sortTeams (s.teams.filter fun t => t.contestId == contestId)).take 100)

/-- A team with its derived `rank` field blanked, for comparing returned teams
against stored ones. -/
def eraseRank (t : Team) : Team := { t with rank := none }

/-- Shorthand for building a user record in concrete test states. -/
def acct (i : Nat) (b : Int) : User :=
  { id := i, name := "u", email := "u@x.y", phone := "0",
    balance := b, totalWinning := 0, totalContests := 0 }

/-! ### Concrete states used to evaluate the handlers -/

/-- One account with zero balance and one pending payment of 500. -/
def statePay : ServerState :=
  { users := [acct 1 0], contests := [], teams := [],
    payments := [{ userId := 1, orderId := "o1", paymentId := none,
                   amount := 500, status := "created" }],
    nextId := 2 }

/-- A contest already at capacity (`joinedTeams = maxTeams = 1`) and a funded account. -/
def stateFull : ServerState :=
  { users := [acct 1 100],
    contests := [{ id := 7, matchId := "m", entryFee := 10, maxTeams := 1,
                   joinedTeams := 1, isActive := true }],
    teams := [], payments := [], nextId := 2 }

/-- A funded account plus a payment with a negative recorded amount and a
contest with a negative entry fee. -/
def stateNeg : ServerState :=
  { users := [acct 1 100],
    contests := [{ id := 7, matchId := "m", entryFee := -50, maxTeams := 10,
                   joinedTeams := 0, isActive := true }],
    teams := [],
    payments := [{ userId := 1, orderId := "o1", paymentId := none,
                   amount := -5, status := "created" }],
    nextId := 2 }

/-- One account holding 200, nothing else persisted. -/
def stateWd : ServerState :=
  { users := [acct 1 200], contests := [], teams := [], payments := [], nextId := 2 }

/-- Account with balance 50 and a contest with entry fee 100. -/
def statePoor : ServerState :=
  { users := [acct 1 50],
    contests := [{ id := 7, matchId := "m", entryFee := 100, maxTeams := 10,
                   joinedTeams := 0, isActive := true }],
    teams := [], payments := [], nextId := 2 }

/-- A funded account and an empty contest collection. -/
def stateNoContest : ServerState :=
  { users := [acct 1 100], contests := [], teams := [], payments := [], nextId := 2 }

end FantasyApp

namespace FantasyApp

/-! ### The public-operation transition system (for the balance invariant) -/

/-- One call of a public operation, with the arguments the corresponding route
reads from the request. -/
inductive Op where
  | register (name email phone : String)
  | confirmPayment (caller : Nat) (orderId paymentId : String)
  | joinContest (caller contestId : Nat) (matchId teamName : String)
      (players : List Player) (captain viceCaptain : String)
  | requestWithdrawal (caller : Nat) (amount : Int) (upiId : String)
  deriving Repr

/-- The state reached by running one public operation (the response is dropped). -/
def applyOp (s : ServerState) : Op → ServerState
  | .register n e p => (register s n e p).1
  | .confirmPayment caller oid pid => (verifyPayment s caller oid pid).1
  | .joinContest caller cid m tn ps cap vc => (createTeam s caller cid m tn ps cap vc).1
  | .requestWithdrawal caller amount upi => (withdraw s caller amount upi).1

/-- The state reached by running a sequence of public operations. -/
def execOps : ServerState → List Op → ServerState
  | s, [] => s
  | s, op :: ops => execOps (applyOp s op) ops

/-- Every stored account balance is nonnegative. -/
def NonNegBalances (s : ServerState) : Prop := ∀ u ∈ s.users, 0 ≤ u.balance

/-- Every stored payment record carries a nonnegative amount. -/
def NonNegPayments (s : ServerState) : Prop := ∀ p ∈ s.payments, 0 ≤ p.amount

instance (s : ServerState) : Decidable (NonNegBalances s) := by
  unfold NonNegBalances; infer_instance

instance (s : ServerState) : Decidable (NonNegPayments s) := by
  unfold NonNegPayments; infer_instance

/-! ### Lookup / update lemmas -/

/-- Every element of a first-match user update is either an untouched original
or the image of the looked-up document. -/
theorem mem_updateFirstUser {uid : Nat} {f : User → User} :
    ∀ {l : List User} {u' : User}, u' ∈ updateFirstUser l uid f →
      u' ∈ l ∨ ∃ u, l.find? (fun x => x.id == uid) = some u ∧ u' = f u
  | [], _, h => absurd h (List.not_mem_nil _)
  | u :: us, u', h => by
    by_cases hc : u.id = uid
    · rw [updateFirstUser, if_pos (by simp [hc])] at h
      rcases List.mem_cons.mp h with h1 | h1
      · exact Or.inr ⟨u, List.find?_cons_of_pos _ (by simp [hc]), h1⟩
      · exact Or.inl (List.mem_cons_of_mem _ h1)
    · rw [updateFirstUser, if_neg (by simp [hc])] at h
      rcases List.mem_cons.mp h with h1 | h1
      · exact Or.inl (h1 ▸ List.mem_cons_self _ _)
      · rcases mem_updateFirstUser h1 with h2 | ⟨w, hw, he⟩
        · exact Or.inl (List.mem_cons_of_mem _ h2)
        · refine Or.inr ⟨w, ?_, he⟩
          rw [List.find?_cons_of_neg _ (by simp [hc])]
          exact hw

/-- Every element of a first-match payment update is either an untouched
original or the image of some original. -/
theorem mem_updateFirstPayment {oid : String} {f : Payment → Payment} :
    ∀ {l : List Payment} {p' : Payment}, p' ∈ updateFirstPayment l oid f →
      p' ∈ l ∨ ∃ p, p ∈ l ∧ p' = f p
  | [], _, h => absurd h (List.not_mem_nil _)
  | p :: ps, p', h => by
    by_cases hc : p.orderId = oid
    · rw [updateFirstPayment, if_pos (by simp [hc])] at h
      rcases List.mem_cons.mp h with h1 | h1
      · exact Or.inr ⟨p, List.mem_cons_self _ _, h1⟩
      · exact Or.inl (List.mem_cons_of_mem _ h1)
    · rw [updateFirstPayment, if_neg (by simp [hc])] at h
      rcases List.mem_cons.mp h with h1 | h1
      · exact Or.inl (h1 ▸ List.mem_cons_self _ _)
      · rcases mem_updateFirstPayment h1 with h2 | ⟨q, hq, he⟩
        · exact Or.inl (List.mem_cons_of_mem _ h2)
        · exact Or.inr ⟨q, List.mem_cons_of_mem _ hq, he⟩

/-! ### Preservation of the nonnegativity invariants -/

/-- Payment confirmation preserves nonnegative balances and payment amounts:
the only balance change is a credit by the looked-up record's amount. -/
theorem verifyPayment_preserves (s : ServerState) (caller : Nat) (oid pid : String)
    (h1 : NonNegBalances s) (h2 : NonNegPayments s) :
    NonNegBalances (verifyPayment s caller oid pid).1 ∧
      NonNegPayments (verifyPayment s caller oid pid).1 := by
  cases hu : getUser s caller with
  | none => simp only [verifyPayment, hu]; exact ⟨h1, h2⟩
  | some u =>
    cases hp : s.payments.find? (fun p => p.orderId == oid) with
    | none => simp only [verifyPayment, hu, hp]; exact ⟨h1, h2⟩
    | some pay =>
      have hpay : 0 ≤ pay.amount := h2 pay (List.mem_of_find?_eq_some hp)
      simp only [verifyPayment, hu, hp, NonNegBalances, NonNegPayments]
      constructor
      · intro u' hu'
        rcases mem_updateFirstUser hu' with h | ⟨w, hw, he⟩
        · exact h1 u' h
        · have hwmem := h1 w (List.mem_of_find?_eq_some hw)
          subst he
          exact add_nonneg hwmem hpay
      · intro p' hp'
        rcases mem_updateFirstPayment hp' with h | ⟨q, hq, he⟩
        · exact h2 p' h
        · subst he
          exact h2 q hq

/-- Updating the first user with id `uid` through an id-preserving function
commutes with looking that id up: the lookup now returns the updated document. -/
theorem find?_updateFirstUser_self (uid : Nat) (f : User → User)
    (hf : ∀ u, (f u).id = u.id) :
    ∀ l : List User,
      (updateFirstUser l uid f).find? (fun u => u.id == uid) =
        (l.find? (fun u => u.id == uid)).map f
  | [] => rfl
  | u :: us => by
    by_cases h : u.id = uid
    · rw [updateFirstUser, if_pos (by simp [h]),
        List.find?_cons_of_pos _ (by simp [hf, h]),
        List.find?_cons_of_pos _ (by simp [h])]
      rfl
    · rw [updateFirstUser, if_neg (by simp [h]),
        List.find?_cons_of_neg _ (by simp [h]),
        List.find?_cons_of_neg _ (by simp [h]),
        find?_updateFirstUser_self uid f hf us]

/-- Updating the first user with id `uid` through an id-preserving function
leaves lookups of any other id unchanged. -/
theorem find?_updateFirstUser_other (uid vid : Nat) (hne : vid ≠ uid)
    (f : User → User) (hf : ∀ u, (f u).id = u.id) :
    ∀ l : List User,
      (updateFirstUser l uid f).find? (fun u => u.id == vid) =
        l.find? (fun u => u.id == vid)
  | [] => rfl
  | u :: us => by
    by_cases h : u.id = uid
    · have hv : ¬ u.id = vid := by
        intro hv; exact hne (by rw [← hv, h])
      rw [updateFirstUser, if_pos (by simp [h]),
        List.find?_cons_of_neg _ (by simp [hf, hv]),
        List.find?_cons_of_neg _ (by simp [hv])]
    · rw [updateFirstUser, if_neg (by simp [h])]
      by_cases hv : u.id = vid
      · rw [List.find?_cons_of_pos _ (by simp [hv]),
          List.find?_cons_of_pos _ (by simp [hv])]
      · rw [List.find?_cons_of_neg _ (by simp [hv]),
          List.find?_cons_of_neg _ (by simp [hv]),
          find?_updateFirstUser_other uid vid hne f hf us]

/-- The join transaction preserves nonnegative balances: the debit only fires
when the guard `balance < entryFee` failed, and it debits the very account the
guard inspected (first-match lookup and first-match update agree). -/
theorem createTeam_preserves (s : ServerState) (caller cid : Nat)
    (m tn : String) (ps : List Player) (cap vc : String)
    (h1 : NonNegBalances s) (h2 : NonNegPayments s) :
    NonNegBalances (createTeam s caller cid m tn ps cap vc).1 ∧
      NonNegPayments (createTeam s caller cid m tn ps cap vc).1 := by
  cases hu : getUser s caller with
  | none => simp only [createTeam, hu]; exact ⟨h1, h2⟩
  | some user =>
    cases hc : getContest s cid with
    | none => simp only [createTeam, hu, hc]; exact ⟨h1, h2⟩
    | some contest =>
      by_cases hlt : user.balance < contest.entryFee
      · simp only [createTeam, hu, hc, if_pos hlt]; exact ⟨h1, h2⟩
      · simp only [createTeam, hu, hc, if_neg hlt, NonNegBalances, NonNegPayments]
        constructor
        · intro u' hu'
          rcases mem_updateFirstUser hu' with h | ⟨w, hw, he⟩
          · exact h1 u' h
          · have hufind : s.users.find? (fun x => x.id == caller) = some user := hu
            have hwu : w = user := Option.some.inj (hw.symm.trans hufind)
            subst hwu
            subst he
            exact sub_nonneg.mpr (not_lt.mp hlt)
        · exact h2

/-- Withdrawal preserves nonnegative balances: the debit only fires when the
guard `balance < amount` failed, on the account the guard inspected. -/
theorem withdraw_preserves (s : ServerState) (caller : Nat) (amount : Int)
    (upi : String) (h1 : NonNegBalances s) (h2 : NonNegPayments s) :
    NonNegBalances (withdraw s caller amount upi).1 ∧
      NonNegPayments (withdraw s caller amount upi).1 := by
  cases hu : getUser s caller with
  | none => simp only [withdraw, hu]; exact ⟨h1, h2⟩
  | some user =>
    by_cases hmin : amount < 100
    · simp only [withdraw, hu, if_pos hmin]; exact ⟨h1, h2⟩
    · by_cases hbal : user.balance < amount
      · simp only [withdraw, hu, if_neg hmin, if_pos hbal]; exact ⟨h1, h2⟩
      · simp only [withdraw, hu, if_neg hmin, if_neg hbal, NonNegBalances, NonNegPayments]
        constructor
        · intro u' hu'
          rcases mem_updateFirstUser hu' with h | ⟨w, hw, he⟩
          · exact h1 u' h
          · have hufind : s.users.find? (fun x => x.id == caller) = some user := hu
            have hwu : w = user := Option.some.inj (hw.symm.trans hufind)
            subst hwu
            subst he
            exact sub_nonneg.mpr (not_lt.mp hbal)
        · exact h2

/-- Registration preserves the invariants: the new account starts at the
hard-coded balance 100. -/
theorem register_preserves (s : ServerState) (n e p : String)
    (h1 : NonNegBalances s) (h2 : NonNegPayments s) :
    NonNegBalances (register s n e p).1 ∧ NonNegPayments (register s n e p).1 := by
  by_cases hdup : s.users.any (fun u => u.email == e)
  · simp only [register, if_pos hdup]; exact ⟨h1, h2⟩
  · simp only [register, if_neg hdup, NonNegBalances, NonNegPayments]
    constructor
    · intro u' hu'
      rcases List.mem_append.mp hu' with h | h
      · exact h1 u' h
      · have := List.mem_singleton.mp h
        subst this
        show (0 : Int) ≤ 100
        decide
    · exact h2

/-- Every single public operation preserves the two nonnegativity invariants. -/
theorem applyOp_preserves (s : ServerState) (op : Op)
    (h1 : NonNegBalances s) (h2 : NonNegPayments s) :
    NonNegBalances (applyOp s op) ∧ NonNegPayments (applyOp s op) := by
  cases op with
  | register n e p => exact register_preserves s n e p h1 h2
  | confirmPayment caller oid pid => exact verifyPayment_preserves s caller oid pid h1 h2
  | joinContest caller cid m tn ps cap vc =>
    exact createTeam_preserves s caller cid m tn ps cap vc h1 h2
  | requestWithdrawal caller amount upi => exact withdraw_preserves s caller amount upi h1 h2

/-- Sequences of public operations preserve the two nonnegativity invariants. -/
theorem execOps_preserves : ∀ (ops : List Op) (s : ServerState),
    NonNegBalances s → NonNegPayments s →
    NonNegBalances (execOps s ops) ∧ NonNegPayments (execOps s ops)
  | [], _, h1, h2 => ⟨h1, h2⟩
  | op :: ops, s, h1, h2 =>
    execOps_preserves ops (applyOp s op)
      (applyOp_preserves s op h1 h2).1 (applyOp_preserves s op h1 h2).2

/-! ### Leaderboard ordering lemmas -/

/-- The leaderboard ordering: strictly more points, or equal points and
strictly earlier creation. -/
def beats (a b : Team) : Prop :=
  b.totalPoints < a.totalPoints ∨
    (b.totalPoints = a.totalPoints ∧ a.createdAt < b.createdAt)

instance (a b : Team) : Decidable (beats a b) := by
  unfold beats; infer_instance

/-- Inserting into a sorted list only adds the inserted element. -/
theorem mem_insertTeam {t v : Team} :
    ∀ {l : List Team}, v ∈ insertTeam t l → v = t ∨ v ∈ l
  | [], h => Or.inl (List.mem_singleton.mp h)
  | u :: us, h => by
    by_cases hc : u.totalPoints ≤ t.totalPoints
    · rw [insertTeam, if_pos hc] at h
      rcases List.mem_cons.mp h with h1 | h1
      · exact Or.inl h1
      · exact Or.inr h1
    · rw [insertTeam, if_neg hc] at h
      rcases List.mem_cons.mp h with h1 | h1
      · exact Or.inr (h1 ▸ List.mem_cons_self _ _)
      · rcases mem_insertTeam h1 with h2 | h2
        · exact Or.inl h2
        · exact Or.inr (List.mem_cons_of_mem _ h2)

theorem insertTeam_length (t : Team) :
    ∀ l : List Team, (insertTeam t l).length = l.length + 1
  | [] => rfl
  | u :: us => by
    by_cases hc : u.totalPoints ≤ t.totalPoints
    · rw [insertTeam, if_pos hc]; rfl
    · rw [insertTeam, if_neg hc, List.length_cons, List.length_cons,
        insertTeam_length t us]

theorem sortTeams_length : ∀ l : List Team, (sortTeams l).length = l.length
  | [] => rfl
  | t :: ts => by rw [sortTeams, insertTeam_length, sortTeams_length ts]; rfl

theorem sortTeams_mem {v : Team} : ∀ {l : List Team}, v ∈ sortTeams l → v ∈ l
  | [], h => absurd h (List.not_mem_nil _)
  | t :: ts, h => by
    rw [sortTeams] at h
    rcases mem_insertTeam h with h1 | h1
    · exact h1 ▸ List.mem_cons_self _ _
    · exact List.mem_cons_of_mem _ (sortTeams_mem h1)

/-- Stable insertion into a `beats`-sorted list of strictly later-created teams
stays `beats`-sorted: the inserted team goes before every team with at most its
score, and it was created before all of them. -/
theorem insertTeam_pairwise (t : Team) :
    ∀ {l : List Team}, l.Pairwise beats → (∀ u ∈ l, t.createdAt < u.createdAt) →
      (insertTeam t l).Pairwise beats
  | [], _, _ => List.pairwise_singleton _ _
  | u :: us, hl, ht => by
    rcases List.pairwise_cons.mp hl with ⟨hu_us, hus⟩
    by_cases hc : u.totalPoints ≤ t.totalPoints
    · rw [insertTeam, if_pos hc]
      refine List.pairwise_cons.mpr ⟨?_, hl⟩
      intro v hv
      have hvle : v.totalPoints ≤ t.totalPoints := by
        rcases List.mem_cons.mp hv with rfl | hvm
        · exact hc
        · rcases hu_us v hvm with hlt | ⟨heq, _⟩
          · exact le_of_lt (lt_of_lt_of_le hlt hc)
          · exact heq ▸ hc
      have hvc : t.createdAt < v.createdAt := ht v hv
      rcases lt_or_eq_of_le hvle with hlt | heq
      · exact Or.inl hlt
      · exact Or.inr ⟨heq, hvc⟩
    · rw [insertTeam, if_neg hc]
      refine List.pairwise_cons.mpr
        ⟨?_, insertTeam_pairwise t hus (fun v hv => ht v (List.mem_cons_of_mem _ hv))⟩
      intro v hv
      rcases mem_insertTeam hv with rfl | h2
      · exact Or.inl (not_le.mp hc)
      · exact hu_us v h2

/-- Stable sort of a creation-ordered list is sorted by points descending with
ties in creation order. -/
theorem sortTeams_pairwise :
    ∀ {l : List Team}, l.Pairwise (fun a b => a.createdAt < b.createdAt) →
      (sortTeams l).Pairwise beats
  | [], _ => List.Pairwise.nil
  | t :: ts, h => by
    rcases List.pairwise_cons.mp h with ⟨ht, hts⟩
    rw [sortTeams]
    exact insertTeam_pairwise t (sortTeams_pairwise hts)
      (fun u hu => ht u (sortTeams_mem hu))

theorem assignRanks_length :
    ∀ (n : Nat) (l : List Team), (assignRanks n l).length = l.length
  | _, [] => rfl
  | n, t :: ts => by
    rw [assignRanks, List.length_cons, List.length_cons, assignRanks_length]

theorem mem_assignRanks {v : Team} :
    ∀ {n : Nat} {l : List Team}, v ∈ assignRanks n l →
      ∃ u ∈ l, ∃ k, v = { u with rank := some k }
  | _, [], h => absurd h (List.not_mem_nil _)
  | n, t :: ts, h => by
    rw [assignRanks] at h
    rcases List.mem_cons.mp h with h1 | h1
    · exact ⟨t, List.mem_cons_self _ _, n, h1⟩
    · rcases mem_assignRanks h1 with ⟨u, hu, k, he⟩
      exact ⟨u, List.mem_cons_of_mem _ hu, k, he⟩

/-- Rank assignment only rewrites the derived `rank` field and therefore
preserves the `beats` ordering. -/
theorem assignRanks_pairwise :
    ∀ {n : Nat} {l : List Team}, l.Pairwise beats → (assignRanks n l).Pairwise beats
  | _, [], _ => List.Pairwise.nil
  | n, t :: ts, h => by
    rcases List.pairwise_cons.mp h with ⟨ht, hts⟩
    rw [assignRanks]
    refine List.pairwise_cons.mpr ⟨?_, assignRanks_pairwise hts⟩
    intro v hv
    rcases mem_assignRanks hv with ⟨u, hu, k, he⟩
    subst he
    exact ht u hu

/-- The ranks written by the forEach loop are exactly `n, n+1, ...` down the
returned sequence. -/
theorem assignRanks_map_rank :
    ∀ (n : Nat) (l : List Team),
      (assignRanks n l).map (fun t => t.rank) =
        (List.range l.length).map (fun i => some (n + i))
  | _, [] => rfl
  | n, t :: ts => by
    rw [assignRanks, List.map_cons, assignRanks_map_rank (n + 1) ts,
      List.length_cons, List.range_succ_eq_map, List.map_cons, List.map_map]
    refine congrArg₂ List.cons (by simp) ?_
    apply List.map_congr_left
    intro i _
    exact congrArg some (by omega)

/-- Rank assignment does not change any team apart from its `rank` field. -/
theorem assignRanks_map_eraseRank :
    ∀ (n : Nat) (l : List Team), (assignRanks n l).map eraseRank = l.map eraseRank
  | _, [] => rfl
  | n, t :: ts => by
    rw [assignRanks, List.map_cons, List.map_cons, assignRanks_map_eraseRank (n + 1) ts]
    rfl

/-- The leaderboard returns `min 100 K` teams, where `K` is the number of the
contest's stored teams — the query is capped at 100 documents. -/
theorem leaderboard_length (s : ServerState) (cid : Nat) :
    (leaderboard s cid).length =
      min 100 (s.teams.filter fun t => t.contestId == cid).length := by
  rw [leaderboard, assignRanks_length, List.length_take, sortTeams_length]

/-! ### Claim theorems -/

/-- C1: the spec claims `confirmPayment` is idempotent — a second confirmation of
an already-Completed record is a no-op and the balance rises by the recorded
amount once. The handler never inspects the record's status: confirming the
same 500-amount order twice succeeds twice and credits 1000, and the record is
already Completed before the second call. The code contradicts the intended
(and domain-mandatory) exactly-once crediting. -/
theorem C1_confirm_twice_credits_twice :
    (verifyPayment statePay 1 "o1" "p1").2 = .success ∧
    ((verifyPayment statePay 1 "o1" "p1").1.payments.find?
        (fun p => p.orderId == "o1")).map (fun p => p.status) = some "completed" ∧
    (verifyPayment (verifyPayment statePay 1 "o1" "p1").1 1 "o1" "p1").2 = .success ∧
    balanceOf (verifyPayment (verifyPayment statePay 1 "o1" "p1").1 1 "o1" "p1").1 1 =
      some 1000 := by
  refine ⟨rfl, rfl, rfl, rfl⟩

/-- C2: the spec claims joins against a full (or inactive) contest fail with
ContestFull/ContestClosed and that `joinedTeams ≤ maxTeams` is invariant. The
handler checks neither capacity nor the active flag: joining a contest with
`joinedTeams = maxTeams = 1` succeeds, debits the account, persists a team, and
drives `joinedTeams` to 2 > `maxTeams`. -/
theorem C2_full_contest_join_succeeds :
    (createTeam stateFull 1 7 "m" "t" [] "c" "v").2 = .success ∧
    joinedTeamsOf (createTeam stateFull 1 7 "m" "t" [] "c" "v").1 7 = some 2 ∧
    (getContest stateFull 7).map (fun c => c.maxTeams) = some 1 ∧
    balanceOf (createTeam stateFull 1 7 "m" "t" [] "c" "v").1 1 = some 90 ∧
    (createTeam stateFull 1 7 "m" "t" [] "c" "v").1.teams.length = 1 := by
  refine ⟨rfl, rfl, rfl, rfl, rfl⟩

/-- C5: the spec claims credit and debit reject non-positive amounts without
touching the balance. The handlers validate nothing: confirming a payment whose
recorded amount is −5 succeeds and lowers the balance from 100 to 95, and
joining a contest whose entry fee is −50 succeeds and raises it from 100 to
150. -/
theorem C5_nonpositive_amounts_accepted :
    (verifyPayment stateNeg 1 "o1" "p1").2 = .success ∧
    balanceOf (verifyPayment stateNeg 1 "o1" "p1").1 1 = some 95 ∧
    (createTeam stateNeg 1 7 "m" "t" [] "c" "v").2 = .success ∧
    balanceOf (createTeam stateNeg 1 7 "m" "t" [] "c" "v").1 1 = some 150 := by
  refine ⟨rfl, rfl, rfl, rfl⟩

/-- C7: the spec claims `requestWithdrawal` rejects amounts below the minimum
(100) and insufficient balances without mutation, and otherwise debits and
records a pending withdrawal for settlement. The first two branches hold, and
the debit happens, but nothing is recorded anywhere: after a successful
withdrawal of 150 the only change in the whole state is the balance, even
though the handler's own response promises processing within 24 hours. -/
theorem C7_withdraw_persists_no_record :
    withdraw stateWd 1 50 "u@upi" = (stateWd, .error .belowMinimum) ∧
    withdraw stateWd 1 300 "u@upi" = (stateWd, .error .insufficientBalance) ∧
    (withdraw stateWd 1 150 "u@upi").2 = .success ∧
    balanceOf (withdraw stateWd 1 150 "u@upi").1 1 = some 50 ∧
    (withdraw stateWd 1 150 "u@upi").1 =
      { stateWd with users := [acct 1 50] } := by
  refine ⟨rfl, rfl, rfl, rfl, rfl⟩

/-- C8: the spec claims malformed rosters (wrong size, captain or vice-captain
outside the roster, captain = vice-captain) are rejected before any mutation.
The handler performs no roster validation: a join with an empty roster and
captain = vice-captain = "x" (a player not in the roster) succeeds, persists
the team as submitted, and debits the entry fee. -/
theorem C8_no_roster_validation :
    (createTeam stateFull 1 7 "m" "t" [] "x" "x").2 = .success ∧
    ((createTeam stateFull 1 7 "m" "t" [] "x" "x").1.teams.map
        (fun t => (t.players.length, t.captain, t.viceCaptain))) = [(0, "x", "x")] ∧
    balanceOf (createTeam stateFull 1 7 "m" "t" [] "x" "x").1 1 = some 90 := by
  refine ⟨rfl, rfl, rfl⟩

/-- C4: a join attempt by an account whose balance is below the entry fee fails
with the insufficient-balance error and returns the state exactly as it was:
no team, no debit, no counter change (the handler rejects before any write). -/
theorem C4_insufficient_funds_atomic (s : ServerState) (caller cid : Nat)
    (m tn : String) (ps : List Player) (cap vc : String)
    (user : User) (contest : Contest)
    (hu : getUser s caller = some user)
    (hc : getContest s cid = some contest)
    (hlt : user.balance < contest.entryFee) :
    createTeam s caller cid m tn ps cap vc = (s, .error .insufficientBalance) := by
  simp only [createTeam, hu, hc, if_pos hlt]

/-- Witness for C4 on the concrete insufficient-funds scenario of the spec
(balance 50, entry fee 100). -/
theorem C4_insufficient_funds_atomic_witness :
    getUser statePoor 1 = some (acct 1 50) ∧
    (getContest statePoor 7).map (fun c => c.entryFee) = some 100 ∧
    createTeam statePoor 1 7 "m" "t" [] "c" "v" = (statePoor, .error .insufficientBalance) := by
  refine ⟨rfl, rfl, ?_⟩
  exact C4_insufficient_funds_atomic statePoor 1 7 "m" "t" [] "c" "v" (acct 1 50)
    { id := 7, matchId := "m", entryFee := 100, maxTeams := 10,
      joinedTeams := 0, isActive := true } rfl rfl (by decide)

/-- C10 counterexample: joining with a contest id that matches no contest does
fail without mutation, but not with a ContestNotFound error — the handler
dereferences the missing contest, throws, and surfaces a generic 500 internal
error. -/
theorem C10_counterexample_internal_error :
    (createTeam stateNoContest 1 5 "m" "t" [] "c" "v").2 ≠ .error .contestNotFound ∧
    createTeam stateNoContest 1 5 "m" "t" [] "c" "v" = (stateNoContest, .error .internalError) := by
  refine ⟨by decide, rfl⟩

/-- C10 amended: a join with an unknown contest id fails — with a generic
internal error (the null contest is dereferenced and the exception reaches the
catch block), not a dedicated ContestNotFound — and performs no mutation. -/
theorem C10_missing_contest_no_mutation (s : ServerState) (caller cid : Nat)
    (m tn : String) (ps : List Player) (cap vc : String) (user : User)
    (hu : getUser s caller = some user)
    (hc : getContest s cid = none) :
    createTeam s caller cid m tn ps cap vc = (s, .error .internalError) := by
  simp only [createTeam, hu, hc]

/-- A state with a single nonnegative-balance account and one payment record
whose recorded amount is negative (the order-creation route validates nothing). -/
def stateNegPay : ServerState :=
  { users := [acct 1 100], contests := [], teams := [],
    payments := [{ userId := 1, orderId := "o1", paymentId := none,
                   amount := -200, status := "created" }],
    nextId := 2 }

/-- C3 counterexample: starting from a state in which every balance is
nonnegative but a payment record carries amount −200 (nothing in the code
stops such a record from existing), the single public operation
`confirmPayment` drives account 1's balance to −100. -/
theorem C3_counterexample_negative_balance :
    NonNegBalances stateNegPay ∧
    balanceOf (execOps stateNegPay [Op.confirmPayment 1 "o1" "p1"]) 1 = some (-100) := by
  refine ⟨by decide, rfl⟩

/-- C3 amended: provided every payment record in the starting state carries a
nonnegative amount (and every balance starts nonnegative), every sequence of
the public operations keeps every account's balance nonnegative at every
observable intermediate state. -/
theorem C3_balances_nonneg (s : ServerState) (ops : List Op)
    (h1 : NonNegBalances s) (h2 : NonNegPayments s) :
    ∀ n : Nat, NonNegBalances (execOps s (ops.take n)) :=
  fun n => (execOps_preserves (ops.take n) s h1 h2).1

/-- Witness for C3 on a concrete run: register an account, then withdraw 150
of its signup-bonus-plus-deposit funds. -/
theorem C3_balances_nonneg_witness :
    NonNegBalances statePay ∧ NonNegPayments statePay ∧
    NonNegBalances (execOps statePay
      (([Op.confirmPayment 1 "o1" "p1", Op.requestWithdrawal 1 150 "u@upi"]).take 2)) := by
  refine ⟨by decide, by decide, ?_⟩
  exact C3_balances_nonneg statePay
    [Op.confirmPayment 1 "o1" "p1", Op.requestWithdrawal 1 150 "u@upi"]
    (by decide) (by decide) 2

/-- C6: the confirmation handler reads the amount from the looked-up payment
record but credits `req.user._id` — the authenticated caller. Whenever the
caller is not the record's owning account, the caller's balance rises by the
recorded amount and the owner's balance does not move. -/
theorem C6_credits_caller_not_owner (s : ServerState) (caller : Nat)
    (oid pid : String) (pay : Payment) (ua ub : User)
    (hp : s.payments.find? (fun p => p.orderId == oid) = some pay)
    (hA : getUser s pay.userId = some ua)
    (hB : getUser s caller = some ub)
    (hne : pay.userId ≠ caller) :
    (verifyPayment s caller oid pid).2 = .success ∧
    balanceOf (verifyPayment s caller oid pid).1 caller = some (ub.balance + pay.amount) ∧
    balanceOf (verifyPayment s caller oid pid).1 pay.userId = some ua.balance := by
  have hfcaller := find?_updateFirstUser_self caller
    (fun u => { u with balance := u.balance + pay.amount }) (fun _ => rfl) s.users
  have hfowner := find?_updateFirstUser_other caller pay.userId hne
    (fun u => { u with balance := u.balance + pay.amount }) (fun _ => rfl) s.users
  simp only [getUser] at hA hB
  simp only [verifyPayment, getUser, hB, hp, balanceOf]
  refine ⟨trivial, ?_, ?_⟩
  · simp only [getUser, hfcaller, hB, Option.map_map]
    rfl
  · simp only [getUser, hfowner, hA]
    rfl

/-- The two-account state used to witness C6: account 1 owns the 500-amount
payment record, account 2 (balance 10) is the caller. -/
def stateTwo : ServerState :=
  { users := [acct 1 0, acct 2 10], contests := [], teams := [],
    payments := [{ userId := 1, orderId := "o1", paymentId := none,
                   amount := 500, status := "created" }],
    nextId := 3 }

/-- Witness for C6: account 2 confirms account 1's order and receives the 500. -/
theorem C6_credits_caller_not_owner_witness :
    (verifyPayment stateTwo 2 "o1" "p1").2 = .success ∧
    balanceOf (verifyPayment stateTwo 2 "o1" "p1").1 2 = some 510 ∧
    balanceOf (verifyPayment stateTwo 2 "o1" "p1").1 1 = some 0 := by
  have h := C6_credits_caller_not_owner stateTwo 2 "o1" "p1"
    { userId := 1, orderId := "o1", paymentId := none, amount := 500, status := "created" }
    (acct 1 0) (acct 2 10) rfl rfl rfl (by decide)
  exact ⟨h.1, h.2.1, h.2.2⟩

/-- Shorthand for building contest-1 teams in leaderboard test states:
`createdAt` doubles as the id. -/
def mkBoardTeam (i : Nat) (pts : Int) : Team :=
  { id := i, userId := 0, contestId := 1, matchId := "m", teamName := "t",
    captain := "c", viceCaptain := "v", players := [], totalPoints := pts,
    rank := none, createdAt := i }

/-- Three teams of contest 1 with a points tie between the first and third. -/
def stateBoard : ServerState :=
  { users := [], contests := [], teams := [mkBoardTeam 0 5, mkBoardTeam 1 7, mkBoardTeam 2 5],
    payments := [], nextId := 3 }

/-- 101 teams of contest 1, all on zero points. -/
def stateBig : ServerState :=
  { users := [], contests := [],
    teams := (List.range 101).map (fun i => mkBoardTeam i 0),
    payments := [], nextId := 101 }

/-- C9 counterexample: with 101 stored teams in the contest the leaderboard
returns 100 of them — the query is capped at 100 documents, so it does not
return all Team records of the contest as claimed. -/
theorem C9_counterexample_limit_100 :
    (leaderboard stateBig 1).length = 100 ∧
    (stateBig.teams.filter fun t => t.contestId == 1).length = 101 := by
  have hall : stateBig.teams.filter (fun t => t.contestId == 1) = stateBig.teams := by
    apply List.filter_eq_self.mpr
    intro a ha
    simp only [stateBig] at ha
    rcases List.mem_map.mp ha with ⟨i, _, rfl⟩
    rfl
  have hfl : (stateBig.teams.filter fun t => t.contestId == 1).length = 101 := by
    rw [hall]; simp [stateBig]
  refine ⟨?_, hfl⟩
  rw [leaderboard_length, hfl]
  decide

/-- C9 amended: for a state whose stored teams are in strictly increasing
creation order (as the append-on-create handler produces), the leaderboard
returns at most the first 100 of the contest's teams ordered by totalPoints
descending with ties broken by earliest creation, assigns ranks 1..N down the
returned sequence, and each returned record is a stored record of the contest
unchanged except for the derived rank field. -/
theorem C9_leaderboard_sorted (s : ServerState) (cid : Nat)
    (h : s.teams.Pairwise fun a b => a.createdAt < b.createdAt) :
    (leaderboard s cid).Pairwise beats ∧
    (leaderboard s cid).map (fun t => t.rank) =
      (List.range (leaderboard s cid).length).map (fun i => some (1 + i)) ∧
    (leaderboard s cid).length =
      min 100 (s.teams.filter fun t => t.contestId == cid).length ∧
    ∀ v ∈ leaderboard s cid, ∃ w ∈ s.teams, w.contestId = cid ∧
      eraseRank v = eraseRank w := by
  have hfilter : (s.teams.filter fun t => t.contestId == cid).Pairwise
      (fun a b => a.createdAt < b.createdAt) := h.filter _
  refine ⟨?_, ?_, leaderboard_length s cid, ?_⟩
  · exact assignRanks_pairwise
      (List.Pairwise.sublist (List.take_sublist _ _) (sortTeams_pairwise hfilter))
  · rw [leaderboard, assignRanks_map_rank, assignRanks_length]
  · intro v hv
    rw [leaderboard] at hv
    rcases mem_assignRanks hv with ⟨u, hu, k, he⟩
    have hu2 : u ∈ sortTeams (s.teams.filter fun t => t.contestId == cid) :=
      List.take_subset _ _ hu
    have hu3 := List.mem_filter.mp (sortTeams_mem hu2)
    refine ⟨u, hu3.1, by simpa using hu3.2, ?_⟩
    subst he
    rfl

/-- Witness for C9 on the three-team state: ranks 1..3, with the tied teams in
creation order. -/
theorem C9_leaderboard_sorted_witness :
    stateBoard.teams.Pairwise (fun a b => a.createdAt < b.createdAt) ∧
    (leaderboard stateBoard 1).Pairwise beats ∧
    (leaderboard stateBoard 1).map (fun t => (t.createdAt, t.totalPoints, t.rank)) =
      [(1, 7, some 1), (0, 5, some 2), (2, 5, some 3)] := by
  refine ⟨by decide, (C9_leaderboard_sorted stateBoard 1 (by decide)).1, by decide⟩

/-- Witness for C10 on a state whose contest collection is empty. -/
theorem C10_missing_contest_no_mutation_witness :
    getUser stateNoContest 1 = some (acct 1 100) ∧
    getContest stateNoContest 5 = none ∧
    createTeam stateNoContest 1 5 "m" "t" [] "c" "v" =
      (stateNoContest, .error .internalError) := by
  refine ⟨rfl, rfl, ?_⟩
  exact C10_missing_contest_no_mutation stateNoContest 1 5 "m" "t" [] "c" "v"
    (acct 1 100) rfl rfl

end FantasyApp
